import Mathlib

/-!
Verification of the indeksddb schema-DSL front end and client-code generator.

The parser is embedded from the recursive-descent parser shipped in the
repository (createParser and its helper productions).  The token cursor
(currentIndex) is threaded explicitly; thrown ParseError / TypeError
exceptions become the err result; while-loops and mutually recursive
productions take a fuel argument, and exhausting every fuel bound models
nontermination (the diverge result).  Source locations are not carried:
no verified property mentions them.

The renderer functions (createGetArgsType, typeNodeForIndex,
createIndexPredicates, createConditionsForIndexes,
createIndexAccessHandling, getItemNameForTable,
createClientTypeDeclaration) are embedded from the renderer sources.
Helpers that live in repository files not present here
(getIndexesForTable, getAnnotationsByName, capitalize, typeForTypeNode,
createNumberType, the add/getAll method type builders) are modelled from
the specification; each such definition says so in its doc comment.
-/

/-- Result of running a parser production: success with a value and the
new cursor index, a thrown error (ParseError or TypeError) with its
message, or divergence (the computation exhausts every fuel bound). -/
inductive PResult (α : Type) where
  | ok : α → Nat → PResult α
  | err : String → PResult α
  | diverge : PResult α
deriving Repr, DecidableEq

/-- Sequencing of parser steps: the continuation receives the value and
the cursor index produced by the first step. -/
def PResult.bind {α β : Type} : PResult α → (α → Nat → PResult β) → PResult β
  | .ok a i, f => f a i
  | .err e, _ => .err e
  | .diverge, _ => .diverge

/-- A lexer token: its SyntaxKind (kept as the literal string used by the
source, e.g. "DatabaseKeyword", "Identifier", "EOF") and its text. -/
structure Token where
  kind : String
  text : String
deriving Repr, DecidableEq

/-- Embeds isStartOfDefinition: the token kinds that begin a top-level
definition. -/
def isStartOfDefinition (token : Token) : Bool :=
  match token.kind with
  | "DatabaseKeyword" => true
  | "TableKeyword" => true
  | "TypeKeyword" => true
  | _ => false

/-- Embeds isAtEnd(): the cursor is past the token array or rests on the
EOF token.  The JavaScript disjunction short-circuits, so the kind is
only read when the index is in bounds. -/
def isAtEnd (tokens : List Token) (i : Nat) : Bool :=
  decide (i ≥ tokens.length) ||
    (match tokens.get? i with
     | some t => t.kind == "EOF"
     | none => false)

/-- Embeds advance(): move the cursor forward unless at the end, and
return the token before the new cursor (previousToken()); reading before
index 0 yields none, as tokens[-1] is undefined. -/
def advance (tokens : List Token) (i : Nat) : Option Token × Nat :=
  let j := if isAtEnd tokens i then i else i + 1
  (tokens.get? (j - 1), j)

/-- Embeds check(...types): whether the current token has one of the
given kinds.  Reading the kind of an out-of-bounds token is the
JavaScript TypeError on undefined, modelled as a thrown error. -/
def check (tokens : List Token) (i : Nat) (kinds : List String) : PResult Bool :=
  match tokens.get? i with
  | some t => .ok (kinds.contains t.kind) i
  | none => .err "TypeError: cannot read kind of undefined"

/-- Embeds consume(...types): advance past the current token and return
it when its kind matches, otherwise return none and stay put. -/
def consume (tokens : List Token) (i : Nat) (kinds : List String) : PResult (Option Token) :=
  match check tokens i kinds with
  | .ok true _ =>
    let r := advance tokens i
    .ok r.1 r.2
  | .ok false _ => .ok none i
  | .err e => .err e
  | .diverge => .diverge

/-- Embeds the consume-then-requireValue pattern used for mandatory
tokens: a missing token raises a ParseError carrying the given message. -/
def consumeReq (tokens : List Token) (i : Nat) (kinds : List String) (msg : String) :
    PResult Token :=
  match consume tokens i kinds with
  | .ok (some t) j => .ok t j
  | .ok none _ => .err msg
  | .err e => .err e
  | .diverge => .diverge

/-- An Identifier AST node (location dropped). -/
structure Identifier where
  value : String
deriving Repr, DecidableEq

/-- A StringLiteral AST node (location dropped). -/
structure StringLit where
  value : String
deriving Repr, DecidableEq

/-- An Annotation AST node: at-name plus string-literal arguments. -/
structure AnnotationNode where
  name : Identifier
  arguments : List StringLit
deriving Repr, DecidableEq

/-- A TypeNode AST node, the variants built by parseTypeNode: a type
reference with type arguments, a keyword type (its SyntaxKind string), or
a literal. -/
inductive TypeNode where
  | typeReferenceNode (name : Identifier) (typeArgs : List TypeNode)
  | keywordTypeNode (kind : String)
  | stringLiteralNode (value : String)
  | integerLiteralNode (value : String)
  | floatLiteralNode (value : String)
  | booleanLiteralNode (value : Bool)
deriving Repr

/-- A FieldDefinition AST node. -/
structure FieldDefinition where
  name : Identifier
  annotations : List AnnotationNode
  type : TypeNode
deriving Repr

/-- A TableDefinition AST node; body holds the field list. -/
structure TableDefinition where
  name : Identifier
  body : List FieldDefinition
  annotations : List AnnotationNode
deriving Repr

/-- A DatabaseDefinition AST node; body holds the table list.  The
parser passes no annotation list for databases. -/
structure DatabaseDefinition where
  name : Identifier
  body : List TableDefinition
deriving Repr

/-- A TypeDefinition AST node (standalone union type alias). -/
structure TypeDefinition where
  name : Identifier
  body : List TypeNode
deriving Repr

/-- A top-level definition: DatabaseDefinition or TypeDefinition. -/
inductive Definition where
  | databaseDef (d : DatabaseDefinition)
  | typeDef (t : TypeDefinition)
deriving Repr

/-- The DatabaseSchema AST root. -/
structure DatabaseSchema where
  body : List Definition
deriving Repr

mutual

/-- Embeds the while-loop of parse(): collect top-level definitions until
isAtEnd().  parseDefinition never returns null on a success path (the
comment-handling cases are commented out in the source), so every parsed
definition is pushed. -/
def parseDefinitionsLoop (tokens : List Token) : Nat → Nat → PResult (List Definition)
  | 0, _ => .diverge
  | n + 1, i =>
    if isAtEnd tokens i then .ok [] i
    else
      (parseDefinition tokens n i).bind fun d j =>
        (parseDefinitionsLoop tokens n j).bind fun ds k =>
          .ok (d :: ds) k

/-- Embeds parseDefinition(): dispatch on the current token kind; only
DatabaseKeyword and TypeKeyword are accepted (TableKeyword falls to the
default error like any other kind). -/
def parseDefinition (tokens : List Token) : Nat → Nat → PResult Definition
  | 0, _ => .diverge
  | n + 1, i =>
    match tokens.get? i with
    | none => .err "TypeError: cannot read kind of undefined"
    | some next =>
      match next.kind with
      | "DatabaseKeyword" =>
        (parseDatabaseDefinition tokens n i).bind fun d j => .ok (.databaseDef d) j
      | "TypeKeyword" =>
        (parseTypeDefinition tokens n i).bind fun t j => .ok (.typeDef t) j
      | _ => .err ("Invalid start to Database definition " ++ next.text)

/-- Embeds parseDatabaseDefinition(): consume the database keyword, the
name identifier, then immediately require the opening brace (the source
parses no annotations here), the table list, and the closing brace. -/
def parseDatabaseDefinition (tokens : List Token) : Nat → Nat → PResult DatabaseDefinition
  | 0, _ => .diverge
  | n + 1, i =>
    (consumeReq tokens i ["DatabaseKeyword"]
        "Unable to find database keyword for database").bind fun _kw j =>
    (consumeReq tokens j ["Identifier"]
        "Unable to find identifier for database").bind fun nameToken j2 =>
    (consumeReq tokens j2 ["LeftBraceToken"] "Expected opening curly brace").bind fun _ob j3 =>
    (parseTableDefinitions tokens n j3).bind fun tables j4 =>
    (consumeReq tokens j4 ["RightBraceToken"] "Expected closing curly brace").bind fun _cb j5 =>
    .ok { name := ⟨nameToken.text⟩, body := tables } j5

/-- Embeds parseTableDefinitions(): parse tables until the closing brace,
erroring when a new database keyword or EOF appears first. -/
def parseTableDefinitions (tokens : List Token) : Nat → Nat → PResult (List TableDefinition)
  | 0, _ => .diverge
  | n + 1, i =>
    (check tokens i ["RightBraceToken"]).bind fun atClose j =>
    if atClose then .ok [] j
    else
      (parseTableDefinition tokens n j).bind fun tbl j2 =>
      (check tokens j2 ["DatabaseKeyword"]).bind fun newDb j3 =>
      if newDb then .err "Closing curly brace expected, but new database found"
      else
        (check tokens j3 ["EOF"]).bind fun atEof j4 =>
        if atEof then .err "Closing curly brace expected but reached end of file"
        else
          (parseTableDefinitions tokens n j4).bind fun rest j5 =>
            .ok (tbl :: rest) j5

/-- Embeds parseTableDefinition(): table keyword, name, annotations,
braces around the field list. -/
def parseTableDefinition (tokens : List Token) : Nat → Nat → PResult TableDefinition
  | 0, _ => .diverge
  | n + 1, i =>
    (consumeReq tokens i ["TableKeyword"]
        "Unable to find table keyword for table").bind fun _kw j =>
    (consumeReq tokens j ["Identifier"]
        "Unable to find identifier for table").bind fun nameToken j2 =>
    (parseAnnotations tokens n j2).bind fun annotations j3 =>
    (consumeReq tokens j3 ["LeftBraceToken"] "Expected opening curly brace").bind fun _ob j4 =>
    (parseFields tokens n j4).bind fun fields j5 =>
    (consumeReq tokens j5 ["RightBraceToken"] "Expected closing curly brace").bind fun _cb j6 =>
    .ok { name := ⟨nameToken.text⟩, body := fields, annotations := annotations } j6

/-- Embeds parseTypeDefinition(): type keyword, name, equals sign, the
alternative list, and the closing semicolon. -/
def parseTypeDefinition (tokens : List Token) : Nat → Nat → PResult TypeDefinition
  | 0, _ => .diverge
  | n + 1, i =>
    (consumeReq tokens i ["TypeKeyword"]
        "Unable to find type keyword for type").bind fun _kw j =>
    (consumeReq tokens j ["Identifier"]
        "Unable to find identifier for type").bind fun nameToken j2 =>
    (consumeReq tokens j2 ["EqualToken"] "Expected \x27=\x27").bind fun _eq j3 =>
    (parseTypeNodes tokens n j3).bind fun body j4 =>
    (consumeReq tokens j4 ["SemicolonToken"]
        "Field definition should end with semicolon").bind fun _semi j5 =>
    .ok { name := ⟨nameToken.text⟩, body := body } j5

/-- Embeds parseAnnotations(): gather annotations while the current token
is an at sign.  parseAnnotation never returns null on a success path, so
every parsed annotation is pushed. -/
def parseAnnotations (tokens : List Token) : Nat → Nat → PResult (List AnnotationNode)
  | 0, _ => .diverge
  | n + 1, i =>
    (check tokens i ["AtToken"]).bind fun hasAt j =>
    if hasAt then
      (parseAnnotationNode tokens n j).bind fun ann j2 =>
        (parseAnnotations tokens n j2).bind fun rest j3 =>
          .ok (ann :: rest) j3
    else .ok [] j

/-- Embeds parseAnnotation(): the at sign, the annotation name, then the
optional argument list. -/
def parseAnnotationNode (tokens : List Token) : Nat → Nat → PResult AnnotationNode
  | 0, _ => .diverge
  | n + 1, i =>
    (consumeReq tokens i ["AtToken"] "Unable to find identifier for field").bind fun _at j =>
    (consumeReq tokens j ["Identifier"] "Annotation must have a name").bind fun nameToken j2 =>
    (parseAnnotationArgs tokens n j2).bind fun args j3 =>
    .ok { name := ⟨nameToken.text⟩, arguments := args } j3

/-- Embeds parseAnnotationArgs(): without an opening paren the argument
list is empty; otherwise run the argument-list loop. -/
def parseAnnotationArgs (tokens : List Token) : Nat → Nat → PResult (List StringLit)
  | 0, _ => .diverge
  | n + 1, i =>
    (consume tokens i ["LeftParenToken"]).bind fun openParen j =>
    match openParen with
    | none => .ok [] j
    | some _ => parseAnnotationArgsLoop tokens n j []

/-- Embeds the while-loop of parseAnnotationArgs() plus the closing-paren
consume after it: on each round an optional comma (readListSeparator) and
an optional string literal are consumed, then the runaway checks fire on
a definition-start token or EOF.  A current token that none of these
steps matches leaves the cursor unchanged and the loop repeats. -/
def parseAnnotationArgsLoop (tokens : List Token) :
    Nat → Nat → List StringLit → PResult (List StringLit)
  | 0, _, _ => .diverge
  | n + 1, i, args =>
    (check tokens i ["RightParenToken"]).bind fun atClose j =>
    if atClose then
      (consume tokens j ["RightParenToken"]).bind fun _cp j2 => .ok args j2
    else
      (consume tokens j ["CommaToken"]).bind fun _sep j2 =>
      (consume tokens j2 ["StringLiteral"]).bind fun arg j3 =>
      let args2 := match arg with
        | some t => args ++ [⟨t.text⟩]
        | none => args
      match tokens.get? j3 with
      | none => .err "TypeError: cannot read kind of undefined"
      | some cur =>
        if isStartOfDefinition cur then
          .err "Closing paren \x27)\x27 expected, but new definition found"
        else
          (check tokens j3 ["EOF"]).bind fun atEof j4 =>
          if atEof then .err "Closing paren \x27)\x27 expected but reached end of file"
          else parseAnnotationArgsLoop tokens n j4 args2

/-- Embeds parseFields(): parse fields until the closing brace, erroring
when a definition-start token or EOF appears first. -/
def parseFields (tokens : List Token) : Nat → Nat → PResult (List FieldDefinition)
  | 0, _ => .diverge
  | n + 1, i =>
    (check tokens i ["RightBraceToken"]).bind fun atClose j =>
    if atClose then .ok [] j
    else
      (parseField tokens n j).bind fun fld j2 =>
      match tokens.get? j2 with
      | none => .err "TypeError: cannot read kind of undefined"
      | some cur =>
        if isStartOfDefinition cur then
          .err "Closing curly brace expected, but new statement found"
        else
          (check tokens j2 ["EOF"]).bind fun atEof j3 =>
          if atEof then .err "Closing curly brace expected but reached end of file"
          else
            (parseFields tokens n j3).bind fun rest j4 =>
              .ok (fld :: rest) j4

/-- Embeds parseField(): annotations, name, colon, type node, semicolon. -/
def parseField (tokens : List Token) : Nat → Nat → PResult FieldDefinition
  | 0, _ => .diverge
  | n + 1, i =>
    (parseAnnotations tokens n i).bind fun annotations j =>
    (consumeReq tokens j ["Identifier"] "Unable to find identifier for field").bind fun nameToken j2 =>
    (consumeReq tokens j2 ["ColonToken"] "Type annotation expected for field").bind fun _c j3 =>
    (parseTypeNode tokens n j3).bind fun ty j4 =>
    (consumeReq tokens j4 ["SemicolonToken"]
        "Field definition should end with semicolon").bind fun _semi j5 =>
    .ok { name := ⟨nameToken.text⟩, annotations := annotations, type := ty } j5

/-- Embeds parseTypeNodes(): the union-alternative list of a type
definition, separated by optional pipes, terminated by a semicolon, with
runaway checks on definition-start tokens and EOF. -/
def parseTypeNodes (tokens : List Token) : Nat → Nat → PResult (List TypeNode)
  | 0, _ => .diverge
  | n + 1, i =>
    (check tokens i ["SemicolonToken"]).bind fun atSemi j =>
    if atSemi then .ok [] j
    else
      (parseTypeNode tokens n j).bind fun t j2 =>
      (consume tokens j2 ["PipeToken"]).bind fun _pipe j3 =>
      match tokens.get? j3 with
      | none => .err "TypeError: cannot read kind of undefined"
      | some cur =>
        if isStartOfDefinition cur then
          .err "Closing semicolon expected, but new statement found"
        else
          (check tokens j3 ["EOF"]).bind fun atEof j4 =>
          if atEof then .err "Closing semicolon expected but reached end of file"
          else
            (parseTypeNodes tokens n j4).bind fun rest j5 =>
              .ok (t :: rest) j5

/-- Embeds parseTypeNode(): dispatch on the current token kind to a type
reference, a keyword type, or a literal. -/
def parseTypeNode (tokens : List Token) : Nat → Nat → PResult TypeNode
  | 0, _ => .diverge
  | n + 1, i =>
    match tokens.get? i with
    | none => .err "TypeError: cannot read kind of undefined"
    | some typeToken =>
      match typeToken.kind with
      | "Identifier" => parseTypeReferenceNode tokens n i
      | "BooleanKeyword" =>
        let r := advance tokens i
        .ok (.keywordTypeNode typeToken.kind) r.2
      | "StringKeyword" =>
        let r := advance tokens i
        .ok (.keywordTypeNode typeToken.kind) r.2
      | "NumberKeyword" =>
        let r := advance tokens i
        .ok (.keywordTypeNode typeToken.kind) r.2
      | "StringLiteral" =>
        let r := advance tokens i
        .ok (.stringLiteralNode typeToken.text) r.2
      | "IntegerLiteral" =>
        let r := advance tokens i
        .ok (.integerLiteralNode typeToken.text) r.2
      | "FloatLiteral" =>
        let r := advance tokens i
        .ok (.floatLiteralNode typeToken.text) r.2
      | "TrueKeyword" =>
        let r := advance tokens i
        .ok (.booleanLiteralNode true) r.2
      | "FalseKeyword" =>
        let r := advance tokens i
        .ok (.booleanLiteralNode false) r.2
      | k => .err ("TypeNode expected but found: " ++ k)

/-- Embeds parseTypeReferenceNode(): the name identifier and, after an
opening angle bracket, the type-argument loop followed by the required
closing angle bracket. -/
def parseTypeReferenceNode (tokens : List Token) : Nat → Nat → PResult TypeNode
  | 0, _ => .diverge
  | n + 1, i =>
    (consumeReq tokens i ["Identifier"] "Unable to find identifier for field").bind fun nameToken j =>
    (consume tokens j ["LessThanToken"]).bind fun openBracket j2 =>
    match openBracket with
    | none => .ok (.typeReferenceNode ⟨nameToken.text⟩ []) j2
    | some _ =>
      (parseTypeArgsLoop tokens n j2).bind fun typeArgs j3 =>
      (consumeReq tokens j3 ["GreaterThanToken"]
          "Map needs to defined contained types").bind fun _cb j4 =>
      .ok (.typeReferenceNode ⟨nameToken.text⟩ typeArgs) j4

/-- Embeds the while-loop inside parseTypeReferenceNode(): parse a type
argument, and when the next token is the closing angle bracket, consume
it inside the loop (the variable holding it is named commaToken in the
source) and keep looping. -/
def parseTypeArgsLoop (tokens : List Token) : Nat → Nat → PResult (List TypeNode)
  | 0, _ => .diverge
  | n + 1, i =>
    (check tokens i ["GreaterThanToken"]).bind fun atClose j =>
    if atClose then .ok [] j
    else
      (parseTypeNode tokens n j).bind fun typeArg j2 =>
      (check tokens j2 ["GreaterThanToken"]).bind fun seesClose j3 =>
      if seesClose then
        (consume tokens j3 ["GreaterThanToken"]).bind fun commaToken j4 =>
        match commaToken with
        | some _ =>
          (parseTypeArgsLoop tokens n j4).bind fun rest j5 => .ok (typeArg :: rest) j5
        | none => .err "Type variables must be separated by a comma"
      else
        (parseTypeArgsLoop tokens n j3).bind fun rest j4 => .ok (typeArg :: rest) j4

end

/-- Embeds parse(): run the top-level definition loop from cursor 0 and
wrap the collected definitions in a DatabaseSchema. -/
def parse (tokens : List Token) (fuel : Nat) : PResult DatabaseSchema :=
  (parseDefinitionsLoop tokens fuel 0).bind fun body i => .ok ⟨body⟩ i

/-- A model of the TypeScript type AST nodes the renderer builds with
ts.factory: keyword types, literal types, type literals (property name
and type per member, in order), type references, unions and function
types. -/
inductive TsType where
  | numberType
  | stringType
  | booleanType
  | literalType (text : String)
  | typeLiteral (members : List (String × TsType))
  | typeReference (name : String) (args : List TsType)
  | unionType (alts : List TsType)
  | functionType (params : List (String × TsType)) (ret : TsType)
deriving Repr

/-- The index kind: the source uses the string union of key and index,
exhaustively checked in typeNodeForIndex. -/
inductive IndexKind where
  | key
  | index
deriving Repr, DecidableEq

/-- The TableIndex record consumed by the renderer.  It is declared in
renderer/keys.ts, which is not among the provided sources; the fields
the provided renderer code reads are name, indexKind and type, and a key
index has exactly one field per the spec. -/
structure TableIndex where
  name : String
  indexKind : IndexKind
  type : TypeNode
deriving Repr

/-- Modelled from the spec: capitalize (renderer/utils.ts, not under
src/).  The default item alias is the capitalized table name: first
character upper-cased, rest kept. -/
def capitalize (s : String) : String :=
  match s.data with
  | [] => ""
  | c :: cs => String.mk (c.toUpper :: cs)

/-- Modelled from the spec: getAnnotationsByName (renderer/keys.ts, not
under src/): the annotations of a node whose name matches the given
annotation name. -/
def getAnnotationsByName (annotations : List AnnotationNode) (name : String) :
    List AnnotationNode :=
  annotations.filter (fun a => a.name.value == name)

/-- Embeds getItemNameForTable (client/type.ts): the single argument of
the single item annotation when present; an error on more than one item
annotation or more than one argument; otherwise the capitalized table
name. -/
def getItemNameForTable (tableDef : TableDefinition) : Except String String :=
  let itemAnnotations := getAnnotationsByName tableDef.annotations "item"
  if itemAnnotations.length > 1 then
    .error "Table can only include one annotation for \"item\""
  else
    match itemAnnotations.head? with
    | some first =>
      let itemArguments := first.arguments
      if itemArguments.length > 1 then
        .error "Table can only include one name alias"
      else if itemArguments.length > 0 then
        (match itemArguments.head? with
         | some firstArg => Except.ok firstArg.value
         | none => Except.ok (capitalize tableDef.name.value))
      else .ok (capitalize tableDef.name.value)
    | none => .ok (capitalize tableDef.name.value)

/-- Modelled from the spec: createNumberType (renderer/types.ts, not
under src/): the ts number keyword type. -/
def createNumberType : TsType := .numberType

mutual

/-- Modelled from the spec: typeForTypeNode (renderer/types.ts, not
under src/): converts a schema TypeNode to a ts type: keyword types map
to the matching keyword type, type references keep their name and
converted arguments, literals map to literal types. -/
def typeForTypeNode : TypeNode → TsType
  | .keywordTypeNode k =>
    if k == "StringKeyword" then .stringType
    else if k == "NumberKeyword" then .numberType
    else .booleanType
  | .typeReferenceNode name args => .typeReference name.value (typeForTypeNodes args)
  | .stringLiteralNode v => .literalType v
  | .integerLiteralNode v => .literalType v
  | .floatLiteralNode v => .literalType v
  | .booleanLiteralNode b => .literalType (if b then "true" else "false")

/-- Converts a type-argument list elementwise (the map in the source). -/
def typeForTypeNodes : List TypeNode → List TsType
  | [] => []
  | t :: ts => typeForTypeNode t :: typeForTypeNodes ts

end

/-- Modelled from the spec: a field carries a primary-key marker when it
is annotated autoincrement or key. -/
def isPrimaryKeyField (f : FieldDefinition) : Bool :=
  f.annotations.any (fun a => a.name.value == "autoincrement") ||
    f.annotations.any (fun a => a.name.value == "key")

/-- Modelled from the spec: the name an index occurrence resolves to —
the group argument when the index annotation has one, the field name
otherwise — paired with the contributing field, listed in declaration
order.  Per the GetArgs completeness property (and the generated
PostsGetArgs shown in the repository README), the primary-key field also
contributes an object alternative, so it heads the occurrence list. -/
def indexOccurrences (tableDef : TableDefinition) : List (String × FieldDefinition) :=
  (tableDef.body.filter isPrimaryKeyField).map (fun f => (f.name.value, f)) ++
    tableDef.body.flatMap (fun f =>
      (f.annotations.filter (fun a => a.name.value == "index")).map (fun a =>
        ((match a.arguments.head? with
          | some g => g.value
          | none => f.name.value),
         f)))

/-- Index-bucket names in first-occurrence order, without duplicates. -/
def firstNames : List (String × FieldDefinition) → List String → List String
  | [], _ => []
  | (n, _) :: rest, seen =>
    if seen.contains n then firstNames rest seen
    else n :: firstNames rest (n :: seen)

/-- Modelled from the spec: getIndexesForTable (renderer/keys.ts, not
under src/).  Per the index-resolver algorithm: every field with a
primary-key marker yields one key-kind entry named by the field; index
occurrences are bucketed by resolved name, each bucket one index-kind
entry, in first-occurrence order, typed by its first contributing field.
Per the GetArgs completeness property and the PostsGetArgs type printed
in the repository README, the primary-key field also appears as an
index-kind entry, giving both the bare key alternative and its object
alternative.  The unique flag is not modelled: none of the provided
renderer sources read it. -/
def getIndexesForTable (tableDef : TableDefinition) : List TableIndex :=
  let keyFields := tableDef.body.filter isPrimaryKeyField
  let keys := keyFields.map (fun f =>
    { name := f.name.value, indexKind := IndexKind.key, type := f.type : TableIndex })
  let occs := indexOccurrences tableDef
  let names := firstNames occs []
  let indexes := names.flatMap (fun n =>
    match (occs.filter (fun o => o.1 == n)).head? with
    | some (_, f) => [{ name := n, indexKind := IndexKind.index, type := f.type : TableIndex }]
    | none => [])
  keys ++ indexes

/-- Embeds createGetArgsTypeName: the capitalized table name suffixed
with GetArgs. -/
def createGetArgsTypeName (tableDef : TableDefinition) : String :=
  capitalize tableDef.name.value ++ "GetArgs"

/-- Embeds typeNodeForIndex: the GetArgs alternative for one index — for
the key kind the hardcoded number type (createNumberType()), for the
index kind a type literal with a single property signature whose name is
the index name and whose type converts the recorded index type. -/
def typeNodeForIndex (index : TableIndex) : TsType :=
  match index.indexKind with
  | .key => createNumberType
  | .index => .typeLiteral [(index.name, typeForTypeNode index.type)]

/-- An exported type alias declaration. -/
structure TypeAliasDeclaration where
  name : String
  type : TsType
deriving Repr

/-- Embeds createGetArgsType: the exported GetArgs alias, a union with
one alternative per entry of getIndexesForTable(def), via
typeNodeForIndex. -/
def createGetArgsType (tableDef : TableDefinition) : TypeAliasDeclaration :=
  let indexes := getIndexesForTable tableDef
  { name := createGetArgsTypeName tableDef
    type := .unionType (indexes.map (fun next => typeNodeForIndex next)) }

/-- Embeds createPredicateNameForIndex: is<Table><Index>Index. -/
def createPredicateNameForIndex (tableDef : TableDefinition) (field : TableIndex) : String :=
  "is" ++ capitalize tableDef.name.value ++ capitalize field.name ++ "Index"

/-- A model of the JavaScript runtime values a generated predicate can
see: numbers, strings, booleans, objects (ordered property list) and
undefined. -/
inductive JsValue where
  | numberVal (n : Int)
  | stringVal (s : String)
  | boolVal (b : Bool)
  | objectVal (props : List (String × JsValue))
  | undefinedVal

/-- The JavaScript typeof operator on modelled values. -/
def jsTypeof : JsValue → String
  | .numberVal _ => "number"
  | .stringVal _ => "string"
  | .boolVal _ => "boolean"
  | .objectVal _ => "object"
  | .undefinedVal => "undefined"

/-- Reflect.has: an object owns a property of the given name; false on
non-objects (never reached under the generated guard). -/
def reflectHas : JsValue → String → Bool
  | .objectVal props, key => props.any (fun p => p.1 == key)
  | _, _ => false

/-- Strict equality on modelled primitive values; object identity is not
modelled (the generated predicates compare only strings). -/
def jsStrictEq : JsValue → JsValue → Bool
  | .numberVal a, .numberVal b => a == b
  | .stringVal a, .stringVal b => a == b
  | .boolVal a, .boolVal b => a == b
  | _, _ => false

/-- JavaScript truthiness of a modelled value. -/
def jsTruthy : JsValue → Bool
  | .boolVal b => b
  | .numberVal n => !(n == 0)
  | .stringVal s => !(s == "")
  | .objectVal _ => true
  | .undefinedVal => false

/-- The expression forms appearing in a generated index predicate body:
identifier, string literal, typeof, strict equality, logical and, and a
Reflect.has call. -/
inductive JsExpr where
  | identExpr (name : String)
  | strLitExpr (s : String)
  | typeofExpr (e : JsExpr)
  | strictEq (l r : JsExpr)
  | andExpr (l r : JsExpr)
  | reflectHasExpr (target key : JsExpr)

/-- Evaluation of the modelled expression forms under an environment;
logical and returns its left value when falsy, its right value
otherwise, as in JavaScript. -/
def evalJsExpr (env : String → JsValue) : JsExpr → JsValue
  | .identExpr n => env n
  | .strLitExpr s => .stringVal s
  | .typeofExpr e => .stringVal (jsTypeof (evalJsExpr env e))
  | .strictEq l r => .boolVal (jsStrictEq (evalJsExpr env l) (evalJsExpr env r))
  | .andExpr l r =>
    let lv := evalJsExpr env l
    if jsTruthy lv then evalJsExpr env r else lv
  | .reflectHasExpr t k =>
    match evalJsExpr env k with
    | .stringVal s => .boolVal (reflectHas (evalJsExpr env t) s)
    | _ => .boolVal false

/-- One generated index predicate: its const name, the declared type of
the arg is T type predicate, and the returned body expression. -/
structure IndexPredicateDecl where
  name : String
  declaredType : TsType
  body : JsExpr

/-- Embeds createIndexPredicates: one const arrow function per entry of
getIndexesForTable(def) — the key index included — declared as the type
predicate arg is typeNodeForIndex(next), returning
typeof arg === "object" && Reflect.has(arg, next.name). -/
def createIndexPredicates (tableDef : TableDefinition) : List IndexPredicateDecl :=
  (getIndexesForTable tableDef).map fun next =>
    { name := createPredicateNameForIndex tableDef next
      declaredType := typeNodeForIndex next
      body := .andExpr
          (.strictEq (.typeofExpr (.identExpr "arg")) (.strLitExpr "object"))
          (.reflectHasExpr (.identExpr "arg") (.strLitExpr next.name)) }

/-- The statements createConditionsForIndexes builds: an if on a named
predicate applied to arg whose then-branch assigns getRequest from
store.index(indexName).get(arg[indexName]) with an optional else
statement, or the block assigning getRequest from store.get(arg) with
the unmodified arg. -/
inductive GetConditionStmt where
  | ifStmt (predicateName : String) (indexName : String) (elseStmt : Option GetConditionStmt)
  | storeGetBlock

/-- Embeds createConditionsForIndexes: a nested if-chain over the
secondary indexes — the else branch is element 0 of the recursive call,
absent when that call returns the empty array — ending in the
store.get(arg) block when any key index exists, and in nothing at all
otherwise. -/
def createConditionsForIndexes (tableDef : TableDefinition)
    (indexes keys : List TableIndex) : List GetConditionStmt :=
  match indexes with
  | next :: remaining =>
    [ .ifStmt (createPredicateNameForIndex tableDef next) next.name
        ((createConditionsForIndexes tableDef remaining keys).head?) ]
  | [] =>
    if keys.length > 0 then [ .storeGetBlock ] else []

/-- Embeds the condition part of createIndexAccessHandling: the indexes
and keys are the non-key and non-index entries of getIndexesForTable,
and the generated statement is element 0 of createConditionsForIndexes
(absent when that list is empty). -/
def createIndexAccessHandlingCondition (tableDef : TableDefinition) : Option GetConditionStmt :=
  let indexesAndKeys := getIndexesForTable tableDef
  let indexes := indexesAndKeys.filter (fun next => !(next.indexKind == IndexKind.key))
  let keys := indexesAndKeys.filter (fun next => !(next.indexKind == IndexKind.index))
  (createConditionsForIndexes tableDef indexes keys).head?

/-- How the generated get body resolves a request: through a named
secondary index (getRequest = store.index(name).get(arg[name])), through
the object store with the unmodified argument (getRequest =
store.get(arg)), or by rejecting the promise. -/
inductive GetDispatch where
  | viaIndex (indexName : String)
  | viaStore
  | rejected (message : String)
deriving Repr, DecidableEq

/-- Runtime meaning of the generated condition statement under a truth
assignment for the predicate calls: the first if whose predicate holds
assigns from its index; the store.get block always assigns; none means
getRequest stays null. -/
def evalGetCondition (predHolds : String → Bool) : Option GetConditionStmt → Option GetDispatch
  | none => none
  | some (.ifStmt p idxName els) =>
    if predHolds p then some (.viaIndex idxName) else evalGetCondition predHolds els
  | some .storeGetBlock => some .viaStore

/-- Embeds the runtime outcome of createIndexAccessHandling: getRequest
starts null, the condition statement may assign it, and the final if
rejects with the no-available-index error when it is still null. -/
def runGetRequestDispatch (tableDef : TableDefinition) (predHolds : String → Bool) :
    GetDispatch :=
  match evalGetCondition predHolds (createIndexAccessHandlingCondition tableDef) with
  | some d => d
  | none => .rejected "No available index for given query"

/-- Modelled from the spec: createDatabaseClientName (client/common.ts,
not under src/): the client type name derived from the database name. -/
def createDatabaseClientName (databaseDef : DatabaseDefinition) : String :=
  capitalize databaseDef.name.value ++ "Client"

/-- Embeds createGetMethodTypeNode: a function type taking arg of the
GetArgs alias and returning a promise of the item type. -/
def createGetMethodTypeNode (tableDef : TableDefinition) : Except String TsType :=
  (getItemNameForTable tableDef).map fun itemName =>
    .functionType [("arg", .typeReference (createGetArgsTypeName tableDef) [])]
      (.typeReference "Promise" [.typeReference itemName []])

/-- Modelled from the spec: createAddMethodTypeNode (client/addMethod.ts,
not under src/): a function type taking the AddArgs shape and returning
a promise; only the presence and name of the add member matter to the
verified claims. -/
def createAddMethodTypeNode (tableDef : TableDefinition) : Except String TsType :=
  (getItemNameForTable tableDef).map fun itemName =>
    .functionType [("arg", .typeReference (capitalize tableDef.name.value ++ "AddArgs") [])]
      (.typeReference "Promise" [.typeReference itemName []])

/-- Modelled from the spec: createGetAllMethodTypeNode
(client/getMethod.ts, not under src/): a function type returning a
promise of an array of items; only the presence and name of the getAll
member matter to the verified claims. -/
def createGetAllMethodTypeNode (tableDef : TableDefinition) : Except String TsType :=
  (getItemNameForTable tableDef).map fun itemName =>
    .functionType []
      (.typeReference "Promise" [.typeReference "Array" [.typeReference itemName []]])

/-- Mapping a list through a fallible function, propagating the first
thrown error, as a TypeScript Array.map does with exceptions. -/
def mapExcept {α β : Type} (f : α → Except String β) : List α → Except String (List β)
  | [] => .ok []
  | a :: l =>
    match f a with
    | .error e => .error e
    | .ok b =>
      match mapExcept f l with
      | .error e => .error e
      | .ok bs => .ok (b :: bs)

/-- The JavaScript toLowerCase call on a table name, modelled per
character (table names are ASCII identifiers). -/
def toLowerCaseStr (s : String) : String := String.mk (s.data.map Char.toLower)

/-- Embeds one property of createClientTypeDeclaration's type literal:
the table name lower-cased, typed by a type literal with the add, get
and getAll method signatures, in that order. -/
def clientTableProperty (next : TableDefinition) : Except String (String × TsType) :=
  match createAddMethodTypeNode next with
  | .error e => .error e
  | .ok addTy =>
    match createGetMethodTypeNode next with
    | .error e => .error e
    | .ok getTy =>
      match createGetAllMethodTypeNode next with
      | .error e => .error e
      | .ok getAllTy =>
        .ok (toLowerCaseStr next.name.value,
          TsType.typeLiteral [("add", addTy), ("get", getTy), ("getAll", getAllTy)])

/-- Embeds createClientTypeDeclaration (client/type.ts): an exported
type alias whose type literal has one property per table of def.body, in
order. -/
def createClientTypeDeclaration (databaseDef : DatabaseDefinition) :
    Except String TypeAliasDeclaration :=
  match mapExcept clientTableProperty databaseDef.body with
  | .error e => .error e
  | .ok props =>
    .ok { name := createDatabaseClientName databaseDef, type := .typeLiteral props }

/-- The property names an object value exposes (empty for non-objects). -/
def jsPropertyNames : JsValue → List String
  | .objectVal props => props.map (fun p => p.1)
  | _ => []

/-- The part of an argument value a generated predicate can observe: its
typeof string and its property names; property values are excluded. -/
def jsShape (v : JsValue) : String × List String := (jsTypeof v, jsPropertyNames v)

/-- Token sequence of the schema fragment database D { table T @a (x —
inside the annotation argument parens the cursor rests on an identifier
token, which is neither a string literal, a comma, a closing paren, a
definition start, nor EOF. -/
def runawayTokens : List Token :=
  [ ⟨"DatabaseKeyword", "database"⟩, ⟨"Identifier", "D"⟩, ⟨"LeftBraceToken", "\x7b"⟩,
    ⟨"TableKeyword", "table"⟩, ⟨"Identifier", "T"⟩, ⟨"AtToken", "@"⟩,
    ⟨"Identifier", "a"⟩, ⟨"LeftParenToken", "("⟩, ⟨"Identifier", "x"⟩, ⟨"EOF", ""⟩ ]

/-- Token sequence of database Blog @version(1) { }. -/
def versionTokens : List Token :=
  [ ⟨"DatabaseKeyword", "database"⟩, ⟨"Identifier", "Blog"⟩, ⟨"AtToken", "@"⟩,
    ⟨"Identifier", "version"⟩, ⟨"LeftParenToken", "("⟩, ⟨"IntegerLiteral", "1"⟩,
    ⟨"RightParenToken", ")"⟩, ⟨"LeftBraceToken", "\x7b"⟩, ⟨"RightBraceToken", "\x7d"⟩,
    ⟨"EOF", ""⟩ ]

/-- Token sequence of database Blog { } without annotations. -/
def plainDbTokens : List Token :=
  [ ⟨"DatabaseKeyword", "database"⟩, ⟨"Identifier", "Blog"⟩,
    ⟨"LeftBraceToken", "\x7b"⟩, ⟨"RightBraceToken", "\x7d"⟩, ⟨"EOF", ""⟩ ]

/-- Token sequence of the field type Map<string> followed by the field
semicolon. -/
def mapOneArgTokens : List Token :=
  [ ⟨"Identifier", "Map"⟩, ⟨"LessThanToken", "<"⟩, ⟨"StringKeyword", "string"⟩,
    ⟨"GreaterThanToken", ">"⟩, ⟨"SemicolonToken", ";"⟩, ⟨"EOF", ""⟩ ]

/-- Token sequence of the field type Map<string, number> followed by the
field semicolon. -/
def mapTwoArgTokens : List Token :=
  [ ⟨"Identifier", "Map"⟩, ⟨"LessThanToken", "<"⟩, ⟨"StringKeyword", "string"⟩,
    ⟨"CommaToken", ","⟩, ⟨"NumberKeyword", "number"⟩,
    ⟨"GreaterThanToken", ">"⟩, ⟨"SemicolonToken", ";"⟩, ⟨"EOF", ""⟩ ]

/-- The Posts table of the README example: autoincrement key id of type
number, simple indexes title and author of type string, item alias
Post. -/
def postsTable : TableDefinition :=
  { name := ⟨"Posts"⟩
    body :=
      [ { name := ⟨"id"⟩, annotations := [⟨⟨"autoincrement"⟩, []⟩],
          type := .keywordTypeNode "NumberKeyword" },
        { name := ⟨"title"⟩, annotations := [⟨⟨"index"⟩, []⟩],
          type := .keywordTypeNode "StringKeyword" },
        { name := ⟨"author"⟩, annotations := [⟨⟨"index"⟩, []⟩],
          type := .keywordTypeNode "StringKeyword" } ]
    annotations := [⟨⟨"item"⟩, [⟨"Post"⟩]⟩] }

/-- A TableIndex for the compound index title_author; the recorded type
is the string keyword of its first member field. -/
def compoundIndexEntry : TableIndex :=
  { name := "title_author", indexKind := IndexKind.index,
    type := TypeNode.keywordTypeNode "StringKeyword" }

/-- The Posts table of the compound-index example: the title field joins
the simple title index and the title_author group, the author field
joins the title_author group. -/
def compoundPostsTable : TableDefinition :=
  { name := ⟨"Posts"⟩
    body :=
      [ { name := ⟨"id"⟩, annotations := [⟨⟨"autoincrement"⟩, []⟩],
          type := .keywordTypeNode "NumberKeyword" },
        { name := ⟨"title"⟩,
          annotations :=
            [⟨⟨"index"⟩, []⟩, ⟨⟨"index"⟩, [⟨"title_author"⟩]⟩, ⟨⟨"unique"⟩, []⟩],
          type := .keywordTypeNode "StringKeyword" },
        { name := ⟨"content"⟩, annotations := [],
          type := .keywordTypeNode "StringKeyword" },
        { name := ⟨"author"⟩, annotations := [⟨⟨"index"⟩, [⟨"title_author"⟩]⟩],
          type := .keywordTypeNode "StringKeyword" } ]
    annotations := [⟨⟨"item"⟩, [⟨"Post"⟩]⟩] }

/-- A TableIndex for a primary key declared on a string field. -/
def stringKeyIndexEntry : TableIndex :=
  { name := "name", indexKind := IndexKind.key,
    type := TypeNode.keywordTypeNode "StringKeyword" }

/-- A table whose explicit primary key field is declared string. -/
def usersTable : TableDefinition :=
  { name := ⟨"Users"⟩
    body :=
      [ { name := ⟨"name"⟩, annotations := [⟨⟨"key"⟩, []⟩],
          type := .keywordTypeNode "StringKeyword" } ]
    annotations := [] }

/-- A table with one item annotation carrying one argument. -/
def itemTableSingle : TableDefinition :=
  { name := ⟨"Posts"⟩, body := [], annotations := [⟨⟨"item"⟩, [⟨"Post"⟩]⟩] }

/-- A table with two item annotations. -/
def itemTableDouble : TableDefinition :=
  { name := ⟨"Posts"⟩, body := [],
    annotations := [⟨⟨"item"⟩, [⟨"Post"⟩]⟩, ⟨⟨"item"⟩, [⟨"Entry"⟩]⟩] }

/-- A table with one item annotation carrying two arguments. -/
def itemTableTwoArgs : TableDefinition :=
  { name := ⟨"Posts"⟩, body := [], annotations := [⟨⟨"item"⟩, [⟨"A"⟩, ⟨"B"⟩]⟩] }

/-- A table with no item annotation. -/
def itemTableNone : TableDefinition :=
  { name := ⟨"posts"⟩, body := [], annotations := [] }

/-- A table with an item annotation carrying no argument. -/
def itemTableNoArgs : TableDefinition :=
  { name := ⟨"posts"⟩, body := [], annotations := [⟨⟨"item"⟩, []⟩] }

/-- The Blog database holding the Posts table. -/
def blogDatabase : DatabaseDefinition := { name := ⟨"Blog"⟩, body := [postsTable] }

/-- The client type alias generated for blogDatabase. -/
def blogClientDecl : TypeAliasDeclaration :=
  { name := "BlogClient"
    type := TsType.typeLiteral
      [ ("posts", TsType.typeLiteral
          [ ("add", TsType.functionType [("arg", TsType.typeReference "PostsAddArgs" [])]
              (TsType.typeReference "Promise" [TsType.typeReference "Post" []])),
            ("get", TsType.functionType [("arg", TsType.typeReference "PostsGetArgs" [])]
              (TsType.typeReference "Promise" [TsType.typeReference "Post" []])),
            ("getAll", TsType.functionType []
              (TsType.typeReference "Promise"
                [TsType.typeReference "Array" [TsType.typeReference "Post" []]])) ]) ] }

/-- The annotation-argument loop makes no progress on runawayTokens: at
cursor 8 the current token is an identifier, so no comma or string
literal is consumed and no runaway check fires, and the loop repeats in
the same state until fuel runs out. -/
theorem parseAnnotationArgsLoop_runaway_stuck :
    ∀ fuel : Nat, parseAnnotationArgsLoop runawayTokens fuel 8 [] = PResult.diverge := by
  intro fuel
  induction fuel with
  | zero => rfl
  | succ n ih =>
    rw [show parseAnnotationArgsLoop runawayTokens (n + 1) 8 [] =
          parseAnnotationArgsLoop runawayTokens n 8 [] from rfl]
    exact ih

/-- C1: refuted on the code as shipped.  The claim states that every
list-parsing loop either advances the cursor or raises a runaway error,
so that no finite token array makes parse() loop forever.  On the token
sequence of database D { table T @a (x — where the token after the
opening paren is an identifier — parseAnnotationArgs neither consumes a
token nor errors, and parse() diverges at every fuel bound. -/
theorem parse_runaway_tokens_diverges :
    ∀ fuel : Nat, parse runawayTokens fuel = PResult.diverge := by
  intro fuel
  match fuel with
  | 0 => rfl
  | 1 => rfl
  | 2 => rfl
  | 3 => rfl
  | 4 => rfl
  | 5 => rfl
  | 6 => rfl
  | 7 => rfl
  | n + 8 =>
    have h := parseAnnotationArgsLoop_runaway_stuck n
    simp only [runawayTokens] at h
    simp [parse, parseDefinitionsLoop, parseDefinition, parseDatabaseDefinition,
      parseTableDefinitions, parseTableDefinition, parseAnnotations, parseAnnotationNode,
      parseAnnotationArgs, consumeReq, consume, check, advance, isAtEnd,
      isStartOfDefinition, PResult.bind, runawayTokens, h]

/-- C2: the claim states that after the database keyword and name the
parser accepts annotations before the opening brace, so that
database Blog @version(1) { } parses.  The code contradicts its own
usage documentation: parseDatabaseDefinition requires the opening brace
directly after the name, so the version annotation raises the
missing-brace ParseError, while the same schema without the annotation
parses. -/
theorem database_annotations_rejected :
    parse versionTokens 50 = PResult.err "Expected opening curly brace" ∧
    parse plainDbTokens 50 =
      PResult.ok ⟨[Definition.databaseDef { name := ⟨"Blog"⟩, body := [] }]⟩ 4 :=
  ⟨rfl, rfl⟩

/-- C6: the claim states that the parser accepts Identifier-angle-bracket
type-argument lists such as Map<string> and Map<string, number>.  The
code contradicts its own grammar comment: the loop in
parseTypeReferenceNode consumes the closing angle bracket itself and
then parses the field semicolon as another TypeNode, and it never
consumes a comma, so both examples raise the TypeNode-expected
ParseError. -/
theorem type_arguments_rejected :
    parseTypeNode mapOneArgTokens 50 0 =
        PResult.err "TypeNode expected but found: SemicolonToken" ∧
    parseTypeNode mapTwoArgTokens 50 0 =
        PResult.err "TypeNode expected but found: CommaToken" :=
  ⟨rfl, rfl⟩

/-- C3: for the table with autoincrement key id of type number and
simple indexes title and author of type string, the generated GetArgs
alias is exactly the union of the bare number key alternative, the id
object alternative, the title object alternative and the author object
alternative — no extra and no missing alternatives. -/
theorem get_args_type_posts :
    createGetArgsType postsTable =
      { name := "PostsGetArgs"
        type := TsType.unionType
          [ TsType.numberType,
            TsType.typeLiteral [("id", TsType.numberType)],
            TsType.typeLiteral [("title", TsType.stringType)],
            TsType.typeLiteral [("author", TsType.stringType)] ] } := by
  rfl

/-- C4 counterexample: on the compound index title_author over the
string fields title and author, typeNodeForIndex yields the
single-property object keyed by the index group name, not the two-field
object keyed by the member field names that the claim describes. -/
theorem compound_index_alternative_single_property :
    typeNodeForIndex compoundIndexEntry =
        TsType.typeLiteral [("title_author", TsType.stringType)] ∧
    typeNodeForIndex compoundIndexEntry ≠
        TsType.typeLiteral
          [("title", TsType.stringType), ("author", TsType.stringType)] := by
  constructor
  · rfl
  · intro h
    simp [typeNodeForIndex, compoundIndexEntry, typeForTypeNode] at h

/-- C4 amended: for the compound-index example table, the GetArgs
alternative generated for the title_author index is the single-property
object type keyed by the index group name title_author (typed by the
index's recorded type), not an object keyed by the member field names. -/
theorem get_args_type_compound_posts :
    createGetArgsType compoundPostsTable =
      { name := "PostsGetArgs"
        type := TsType.unionType
          [ TsType.numberType,
            TsType.typeLiteral [("id", TsType.numberType)],
            TsType.typeLiteral [("title", TsType.stringType)],
            TsType.typeLiteral [("title_author", TsType.stringType)] ] } := by
  rfl

/-- C5 counterexample: on a primary-key index recorded for a string
field, typeNodeForIndex yields the number type, not the field's string
type as the claim states. -/
theorem key_alternative_ignores_field_type :
    typeNodeForIndex stringKeyIndexEntry = TsType.numberType ∧
    typeNodeForIndex stringKeyIndexEntry ≠ TsType.stringType ∧
    typeNodeForIndex stringKeyIndexEntry ≠
        typeForTypeNode stringKeyIndexEntry.type := by
  refine ⟨rfl, ?_, ?_⟩ <;>
    · intro h
      simp [typeNodeForIndex, stringKeyIndexEntry, typeForTypeNode, createNumberType] at h

/-- C5 amended: the GetArgs alternative produced for a primary-key index
is always the hardcoded number type, whatever the key field's declared
type; in particular the table whose key field name is declared string
gets number as its primary-key alternative. -/
theorem key_alternative_always_number :
    (∀ ix : TableIndex, ix.indexKind = IndexKind.key →
        typeNodeForIndex ix = TsType.numberType) ∧
    createGetArgsType usersTable =
      { name := "UsersGetArgs"
        type := TsType.unionType
          [ TsType.numberType,
            TsType.typeLiteral [("name", TsType.stringType)] ] } := by
  constructor
  · intro ix h
    simp [typeNodeForIndex, h, createNumberType]
  · rfl

/-- Witness for the C5 amended theorem at the concrete string-keyed
index entry. -/
theorem key_alternative_always_number_witness :
    typeNodeForIndex stringKeyIndexEntry = TsType.numberType :=
  key_alternative_always_number.1 stringKeyIndexEntry (by rfl)

/-- C7: getItemNameForTable returns the single string argument when the
table carries one item annotation with one argument; raises an error on
more than one item annotation or on an item annotation with more than
one argument; and returns the capitalized table name when no item
annotation, or an item annotation without argument, is present. -/
theorem get_item_name_resolution (tableDef : TableDefinition) :
    ((getAnnotationsByName tableDef.annotations "item").length > 1 →
      getItemNameForTable tableDef =
        .error "Table can only include one annotation for \"item\"") ∧
    (∀ ann : AnnotationNode, getAnnotationsByName tableDef.annotations "item" = [ann] →
      (ann.arguments.length > 1 →
        getItemNameForTable tableDef = .error "Table can only include one name alias") ∧
      (∀ arg : StringLit, ann.arguments = [arg] →
        getItemNameForTable tableDef = .ok arg.value) ∧
      (ann.arguments = [] →
        getItemNameForTable tableDef = .ok (capitalize tableDef.name.value))) ∧
    (getAnnotationsByName tableDef.annotations "item" = [] →
      getItemNameForTable tableDef = .ok (capitalize tableDef.name.value)) := by
  refine ⟨?_, ?_, ?_⟩
  · intro h
    simp [getItemNameForTable, h]
  · intro ann h
    refine ⟨?_, ?_, ?_⟩
    · intro ha
      simp [getItemNameForTable, h, ha]
    · intro arg ha
      simp [getItemNameForTable, h, ha]
    · intro ha
      simp [getItemNameForTable, h, ha]
  · intro h
    simp [getItemNameForTable, h]

/-- Witness for C7 at concrete tables: one item annotation with one
argument, two item annotations, one annotation with two arguments, no
annotation, and an annotation without argument. -/
theorem get_item_name_resolution_witness :
    getItemNameForTable itemTableSingle = .ok "Post" ∧
    getItemNameForTable itemTableDouble =
        .error "Table can only include one annotation for \"item\"" ∧
    getItemNameForTable itemTableTwoArgs =
        .error "Table can only include one name alias" ∧
    getItemNameForTable itemTableNone = .ok "Posts" ∧
    getItemNameForTable itemTableNoArgs = .ok "Posts" := by
  refine ⟨?_, ?_, ?_, ?_, ?_⟩
  · exact ((get_item_name_resolution itemTableSingle).2.1 ⟨⟨"item"⟩, [⟨"Post"⟩]⟩
      (by rfl)).2.1 ⟨"Post"⟩ (by rfl)
  · exact (get_item_name_resolution itemTableDouble).1 (by decide)
  · exact ((get_item_name_resolution itemTableTwoArgs).2.1 ⟨⟨"item"⟩, [⟨"A"⟩, ⟨"B"⟩]⟩
      (by rfl)).1 (by decide)
  · exact (get_item_name_resolution itemTableNone).2.2 (by rfl)
  · exact ((get_item_name_resolution itemTableNoArgs).2.1 ⟨⟨"item"⟩, []⟩ (by rfl)).2.2 (by rfl)

/-- Running the generated if-chain equals finding the first index whose
predicate holds, falling back to the store.get block exactly when a key
index exists. -/
theorem evalGetCondition_createConditions (tableDef : TableDefinition)
    (predHolds : String → Bool) (keys : List TableIndex) :
    ∀ indexes : List TableIndex,
      evalGetCondition predHolds
          ((createConditionsForIndexes tableDef indexes keys).head?) =
        (match indexes.find?
            (fun next => predHolds (createPredicateNameForIndex tableDef next)) with
         | some next => some (GetDispatch.viaIndex next.name)
         | none => if keys.length > 0 then some GetDispatch.viaStore else none) := by
  intro indexes
  induction indexes with
  | nil =>
    by_cases h : keys.length > 0 <;>
      simp [createConditionsForIndexes, evalGetCondition, h]
  | cons next remaining ih =>
    by_cases h : predHolds (createPredicateNameForIndex tableDef next) <;>
      simp [createConditionsForIndexes, evalGetCondition, h, List.find?_cons, ih]

/-- C8: in the generated get body, the secondary-index predicates are
tried in the order the indexes are listed and the first satisfied one
wins, resolving through that index; when none is satisfied and the table
has a key index, the request becomes store.get with the argument
unmodified, whatever shape that argument has; and when the table has no
key index the promise is rejected with the no-available-index error. -/
theorem get_dispatch_order_and_fallback (tableDef : TableDefinition)
    (predHolds : String → Bool) :
    runGetRequestDispatch tableDef predHolds =
      (let indexesAndKeys := getIndexesForTable tableDef
       let indexes := indexesAndKeys.filter
          (fun next => !(next.indexKind == IndexKind.key))
       let keys := indexesAndKeys.filter
          (fun next => !(next.indexKind == IndexKind.index))
       match indexes.find?
          (fun next => predHolds (createPredicateNameForIndex tableDef next)) with
       | some next => GetDispatch.viaIndex next.name
       | none =>
         if keys.length > 0 then GetDispatch.viaStore
         else GetDispatch.rejected "No available index for given query") := by
  unfold runGetRequestDispatch createIndexAccessHandlingCondition
  rw [evalGetCondition_createConditions]
  cases hf : ((getIndexesForTable tableDef).filter
      (fun next => !(next.indexKind == IndexKind.key))).find?
      (fun next => predHolds (createPredicateNameForIndex tableDef next)) with
  | some next => simp [hf]
  | none =>
    by_cases hk : ((getIndexesForTable tableDef).filter
        (fun next => !(next.indexKind == IndexKind.index))).length > 0 <;>
      simp [hf, hk]

/-- Evaluating a generated predicate body yields the boolean conjunction
of the typeof check and the Reflect.has check on the arg binding. -/
theorem evalJsExpr_predicate_body (env : String → JsValue) (idxName : String) :
    evalJsExpr env
        (.andExpr (.strictEq (.typeofExpr (.identExpr "arg")) (.strLitExpr "object"))
          (.reflectHasExpr (.identExpr "arg") (.strLitExpr idxName))) =
      .boolVal ((jsTypeof (env "arg") == "object") && reflectHas (env "arg") idxName) := by
  cases hb : (jsTypeof (env "arg") == "object") <;>
    simp [evalJsExpr, jsStrictEq, jsTruthy, hb]

/-- Reflect.has observes only the property names of a value. -/
theorem reflectHas_eq_propertyNames (v : JsValue) (key : String) :
    reflectHas v key = (jsPropertyNames v).any (fun s => s == key) := by
  cases v with
  | objectVal props =>
    induction props with
    | nil => rfl
    | cons p rest ih => simp [reflectHas, jsPropertyNames, List.any_cons] at ih ⊢ ; rw [ih]
  | numberVal n => rfl
  | stringVal s => rfl
  | boolVal b => rfl
  | undefinedVal => rfl

/-- C9: a predicate is<Table><Index>Index is generated for every index
of the table, the key index included; it returns true exactly when
typeof arg is object and arg carries a property named after the index;
its result depends only on the typeof string and the property names of
arg, never on a property value; and the key index's predicate, whose
declared type predicate asserts the number type, performs this same
object-property check. -/
theorem index_predicate_checks_property (tableDef : TableDefinition) (k : Nat)
    (next : TableIndex) (h : (getIndexesForTable tableDef)[k]? = some next) :
    (createIndexPredicates tableDef).length = (getIndexesForTable tableDef).length ∧
    ∃ pd : IndexPredicateDecl,
      (createIndexPredicates tableDef)[k]? = some pd ∧
      pd.name = createPredicateNameForIndex tableDef next ∧
      pd.declaredType = typeNodeForIndex next ∧
      (∀ env : String → JsValue,
        (evalJsExpr env pd.body = JsValue.boolVal true ↔
          jsTypeof (env "arg") = "object" ∧ reflectHas (env "arg") next.name = true)) ∧
      (∀ env env2 : String → JsValue, jsShape (env "arg") = jsShape (env2 "arg") →
        evalJsExpr env pd.body = evalJsExpr env2 pd.body) ∧
      (next.indexKind = IndexKind.key → pd.declaredType = TsType.numberType) := by
  constructor
  · simp [createIndexPredicates]
  refine ⟨{ name := createPredicateNameForIndex tableDef next
            declaredType := typeNodeForIndex next
            body := .andExpr
              (.strictEq (.typeofExpr (.identExpr "arg")) (.strLitExpr "object"))
              (.reflectHasExpr (.identExpr "arg") (.strLitExpr next.name)) },
      ?_, rfl, rfl, ?_, ?_, ?_⟩
  · simp [createIndexPredicates, List.getElem?_map, h]
  · intro env
    rw [evalJsExpr_predicate_body]
    constructor
    · intro he
      have : ((jsTypeof (env "arg") == "object") && reflectHas (env "arg") next.name) = true := by
        exact congrArg (fun v => match v with
          | JsValue.boolVal b => b
          | _ => false) he
      simp at this
      exact ⟨this.1, this.2⟩
    · intro ⟨h1, h2⟩
      simp [h1, h2]
  · intro env env2 hsh
    rw [evalJsExpr_predicate_body, evalJsExpr_predicate_body]
    have h1 : jsTypeof (env "arg") = jsTypeof (env2 "arg") :=
      congrArg Prod.fst hsh
    have h2 : jsPropertyNames (env "arg") = jsPropertyNames (env2 "arg") :=
      congrArg Prod.snd hsh
    rw [reflectHas_eq_propertyNames, reflectHas_eq_propertyNames, h1, h2]
  · intro hk
    simp [typeNodeForIndex, hk, createNumberType]

/-- Witness for C9 at the Posts table and its key index entry. -/
theorem index_predicate_checks_property_witness :
    (createIndexPredicates postsTable).length = (getIndexesForTable postsTable).length ∧
    ∃ pd : IndexPredicateDecl,
      (createIndexPredicates postsTable)[0]? = some pd ∧
      pd.name = createPredicateNameForIndex postsTable
        ⟨"id", IndexKind.key, TypeNode.keywordTypeNode "NumberKeyword"⟩ ∧
      pd.declaredType = typeNodeForIndex
        ⟨"id", IndexKind.key, TypeNode.keywordTypeNode "NumberKeyword"⟩ ∧
      (∀ env : String → JsValue,
        (evalJsExpr env pd.body = JsValue.boolVal true ↔
          jsTypeof (env "arg") = "object" ∧ reflectHas (env "arg") "id" = true)) ∧
      (∀ env env2 : String → JsValue, jsShape (env "arg") = jsShape (env2 "arg") →
        evalJsExpr env pd.body = evalJsExpr env2 pd.body) ∧
      (IndexKind.key = IndexKind.key → pd.declaredType = TsType.numberType) :=
  index_predicate_checks_property postsTable 0
    ⟨"id", IndexKind.key, TypeNode.keywordTypeNode "NumberKeyword"⟩ (by rfl)

/-- A successful clientTableProperty yields the lower-cased table name
and a type literal whose members are exactly add, get and getAll. -/
theorem clientTableProperty_spec (t : TableDefinition) (p : String × TsType)
    (h : clientTableProperty t = .ok p) :
    p.1 = toLowerCaseStr t.name.value ∧
    ∃ members : List (String × TsType),
      p.2 = TsType.typeLiteral members ∧
      members.map Prod.fst = ["add", "get", "getAll"] := by
  unfold clientTableProperty at h
  cases ha : createAddMethodTypeNode t with
  | error e => rw [ha] at h; cases h
  | ok addTy =>
    rw [ha] at h
    cases hg : createGetMethodTypeNode t with
    | error e => rw [hg] at h; cases h
    | ok getTy =>
      rw [hg] at h
      cases hga : createGetAllMethodTypeNode t with
      | error e => rw [hga] at h; cases h
      | ok getAllTy =>
        rw [hga] at h
        cases h
        exact ⟨rfl, [("add", addTy), ("get", getTy), ("getAll", getAllTy)], rfl, rfl⟩

/-- Mapping clientTableProperty over a table list pairs each table, in
order, with its lower-cased name and its three-method type literal. -/
theorem mapExcept_clientTableProperty_spec :
    ∀ (tables : List TableDefinition) (props : List (String × TsType)),
      mapExcept clientTableProperty tables = .ok props →
      props.map Prod.fst = tables.map (fun next => toLowerCaseStr next.name.value) ∧
      ∀ p ∈ props, ∃ members : List (String × TsType),
        p.2 = TsType.typeLiteral members ∧
        members.map Prod.fst = ["add", "get", "getAll"] := by
  intro tables
  induction tables with
  | nil =>
    intro props h
    cases h
    simp
  | cons t ts ih =>
    intro props h
    unfold mapExcept at h
    cases hf : clientTableProperty t with
    | error e => rw [hf] at h; cases h
    | ok b =>
      rw [hf] at h
      cases hm : mapExcept clientTableProperty ts with
      | error e => rw [hm] at h; cases h
      | ok bs =>
        rw [hm] at h
        cases h
        obtain ⟨h1, h2⟩ := ih bs hm
        obtain ⟨hb1, hb2⟩ := clientTableProperty_spec t b hf
        constructor
        · simp [h1, hb1]
        · intro p hp
          cases hp with
          | head => exact hb2
          | tail _ hmem => exact h2 p hmem

/-- C10: the generated database client type has, for each table of the
database in declaration order, exactly one property named by the table
name lower-cased, and each property's type exposes exactly the three
members add, get and getAll, in that order. -/
theorem client_type_one_property_per_table (databaseDef : DatabaseDefinition)
    (decl : TypeAliasDeclaration)
    (h : createClientTypeDeclaration databaseDef = .ok decl) :
    ∃ props : List (String × TsType),
      decl.type = TsType.typeLiteral props ∧
      props.map Prod.fst = databaseDef.body.map (fun next => toLowerCaseStr next.name.value) ∧
      ∀ p ∈ props, ∃ members : List (String × TsType),
        p.2 = TsType.typeLiteral members ∧
        members.map Prod.fst = ["add", "get", "getAll"] := by
  unfold createClientTypeDeclaration at h
  cases hm : mapExcept clientTableProperty databaseDef.body with
  | error e => rw [hm] at h; cases h
  | ok props =>
    rw [hm] at h
    cases h
    obtain ⟨h1, h2⟩ := mapExcept_clientTableProperty_spec databaseDef.body props hm
    exact ⟨props, rfl, h1, h2⟩

/-- Witness for C10 at the Blog database with the Posts table. -/
theorem client_type_one_property_per_table_witness :
    ∃ props : List (String × TsType),
      blogClientDecl.type = TsType.typeLiteral props ∧
      props.map Prod.fst = blogDatabase.body.map (fun next => toLowerCaseStr next.name.value) ∧
      ∀ p ∈ props, ∃ members : List (String × TsType),
        p.2 = TsType.typeLiteral members ∧
        members.map Prod.fst = ["add", "get", "getAll"] :=
  client_type_one_property_per_table blogDatabase blogClientDecl (by rfl)
